import Mathlib

/-!
Verification development for the pipeline-and-extraction core of the
jira_gen repository (src/main.py, src/api_backend.py, src/config.py).

Python strings are modelled as `List Char`.  Functions are translated from
the source files; components of the repository that are not present under
src/ (tools/jira_tool.py and the crewai sequential executor) are modelled
from the specification and marked as such in their doc comments.
-/

/-- The backtick character (code 96), written via `Char.ofNat`. -/
def bt : Char := Char.ofNat 96

/-- Python whitespace for `str.strip` / regex `\s`: space, tab, newline,
carriage return, vertical tab, form feed. -/
def isSpacePy (c : Char) : Bool :=
  c = ' ' || c = '\t' || c = '\n' || c = '\r' || c = Char.ofNat 11 || c = Char.ofNat 12

/-- Python `str.lstrip()`. -/
def lstrip (l : List Char) : List Char := l.dropWhile isSpacePy

/-- Python `str.rstrip()`. -/
def rstrip (l : List Char) : List Char := (l.reverse.dropWhile isSpacePy).reverse

/-- Python `str.strip()`: remove surrounding whitespace. -/
def pyStrip (l : List Char) : List Char := rstrip (lstrip l)

/-- Boolean test: the first list is a prefix of the second
(Python `str.startswith`). -/
def pfx : List Char → List Char → Bool
| [], _ => true
| _ :: _, [] => false
| a :: as, b :: bs => a == b && pfx as bs

/-- Python `str.endswith`. -/
def sfx (pat l : List Char) : Bool := pfx pat.reverse l.reverse

/-- Split a text at the first occurrence of `pat`: returns the part before
the occurrence and the part after it (the occurrence removed), or `none`
when `pat` does not occur.  This is the primitive behind the regex scans
and Python's `in` operator in the source. -/
def splitFirst (pat : List Char) : List Char → Option (List Char × List Char)
| [] => if pfx pat [] then some ([], []) else none
| c :: rest =>
  if pfx pat (c :: rest) then some ([], (c :: rest).drop pat.length)
  else
    match splitFirst pat rest with
    | some (pre, post) => some (c :: pre, post)
    | none => none

/-- Python's substring test `pat in l`. -/
def containsSub (pat l : List Char) : Bool := (splitFirst pat l).isSome

/-- Python `str.split('\n')`. -/
def splitNl : List Char → List (List Char)
| [] => [[]]
| c :: rest =>
  match splitNl rest with
  | [] => [[]]
  | h :: t => if c = '\n' then [] :: h :: t else (c :: h) :: t

/-- The opener of a fenced mermaid block in the regex
`r'```mermaid\n(.*?)\n```'` of both extractors. -/
def mOpen : List Char := bt :: bt :: bt :: 'm' :: 'e' :: 'r' :: 'm' :: 'a' :: 'i' :: 'd' :: '\n' :: []

/-- The closer `\n`-backtick-backtick-backtick of the same regex. -/
def mClose : List Char := '\n' :: bt :: bt :: bt :: []

/-- `re.findall(r'```mermaid\n(.*?)\n```', text, re.DOTALL)`: repeatedly
take the first opener, then the lazily shortest stretch up to the first
closer, and continue after the match.  The fuel argument only bounds the
recursion; `findMermaid` supplies enough of it. -/
def findBlocks : Nat → List Char → List (List Char)
| 0, _ => []
| Nat.succ fuel, s =>
  match splitFirst mOpen s with
  | none => []
  | some (_, afterOpen) =>
    match splitFirst mClose afterOpen with
    | none => []
    | some (code, rest) => code :: findBlocks fuel rest

/-- All fenced mermaid matches of a text, in source order. -/
def findMermaid (s : List Char) : List (List Char) := findBlocks (s.length + 1) s

/-- One extracted diagram of api_backend.extract_mermaid_diagrams:
a title and the trimmed diagram code. -/
structure ExtractedDiagram where
  title : List Char
  code : List Char
deriving DecidableEq

/-- Decimal rendering of a number, as Python string interpolation does. -/
def natChars (n : Nat) : List Char := (Nat.repr n).toList

/-- The `for i, match in enumerate(matches, 1)` loop of
api_backend.extract_mermaid_diagrams: sequential titles and stripped codes. -/
def numberFrom (i : Nat) : List (List Char) → List ExtractedDiagram
| [] => []
| m :: ms => ⟨"Diagram ".toList ++ natChars i, pyStrip m⟩ :: numberFrom (i + 1) ms

namespace Api

/-- Body of api_backend.extract_mermaid_diagrams after the emptiness guard. -/
def extract_core (text : List Char) : List ExtractedDiagram := numberFrom 1 (findMermaid text)

/-- src/api_backend.py `extract_mermaid_diagrams(text)` (lines 211-227):
`if not text: return []` (absent or empty input), then the fenced-block
findall with titles `Diagram 1`, `Diagram 2`, ... and stripped codes.
No length filter is applied in this implementation. -/
def extract_mermaid_diagrams (text : Option (List Char)) : List ExtractedDiagram :=
  match text with
  | none => []
  | some t => if t.isEmpty then [] else extract_core t

end Api

/-- The lookahead `(?=\n\n|\n#|\nsequence|\ngraph|\nerDiagram|\nstateDiagram|$)`
of main.py's fallback diagram patterns.  The patterns are compiled with
`re.MULTILINE`, under which `$` matches at the end of the string and just
before every newline; the last two disjuncts model exactly that. -/
def lookaheadOk (rest : List Char) : Bool :=
  pfx "\n\n".toList rest || pfx "\n#".toList rest || pfx "\nsequence".toList rest ||
  pfx "\ngraph".toList rest || pfx "\nerDiagram".toList rest || pfx "\nstateDiagram".toList rest ||
  rest.isEmpty || pfx "\n".toList rest

/-- The lazy `.*?` before the lookahead: extend the capture one character at
a time, stopping at the first position where the lookahead holds. -/
def lazyExt (acc : List Char) : List Char → List Char × List Char
| [] => (acc, [])
| c :: rest => if lookaheadOk (c :: rest) then (acc, c :: rest) else lazyExt (acc ++ [c]) rest

/-- Keyword matcher of the first fallback pattern `graph (?:TB|TD|BT|RL|LR)`. -/
def kwGraph (s : List Char) : Option (List Char × List Char) :=
  if pfx "graph TB".toList s || pfx "graph TD".toList s || pfx "graph BT".toList s ||
     pfx "graph RL".toList s || pfx "graph LR".toList s
  then some (s.take 8, s.drop 8) else none

/-- Keyword matcher of the pattern `sequenceDiagram`. -/
def kwSeq (s : List Char) : Option (List Char × List Char) :=
  if pfx "sequenceDiagram".toList s then some (s.take 15, s.drop 15) else none

/-- Keyword matcher of the pattern `erDiagram`. -/
def kwEr (s : List Char) : Option (List Char × List Char) :=
  if pfx "erDiagram".toList s then some (s.take 9, s.drop 9) else none

/-- Keyword matcher of the pattern `stateDiagram-v2`. -/
def kwState (s : List Char) : Option (List Char × List Char) :=
  if pfx "stateDiagram-v2".toList s then some (s.take 15, s.drop 15) else none

/-- Scan for the leftmost position where the keyword matcher fires. -/
def findKwStart (m : List Char → Option (List Char × List Char)) : List Char → Option (List Char × List Char)
| [] => none
| c :: rest =>
  match m (c :: rest) with
  | some r => some r
  | none => findKwStart m rest

/-- `re.findall` for one fallback pattern: leftmost keyword occurrence, lazy
extension up to the lookahead, then continue after the match end. -/
def findAllKw (m : List Char → Option (List Char × List Char)) : Nat → List Char → List (List Char)
| 0, _ => []
| Nat.succ fuel, s =>
  match findKwStart m s with
  | none => []
  | some (kw, afterKw) =>
    let cr := lazyExt kw afterKw
    cr.1 :: findAllKw m fuel cr.2

/-- The `for pattern in diagram_patterns` loop of main.py: all four fallback
patterns scanned over the whole text, results concatenated. -/
def fallbackMatches (s : List Char) : List (List Char) :=
  findAllKw kwGraph (s.length + 1) s ++ findAllKw kwSeq (s.length + 1) s ++
  findAllKw kwEr (s.length + 1) s ++ findAllKw kwState (s.length + 1) s

namespace MainSys

/-- The match-gathering part of main.py `_extract_mermaid_diagrams` (lines
144-160): fenced mermaid blocks, and only if none are found, the four
keyword fallback patterns. -/
def allMatches (text : List Char) : List (List Char) :=
  let ms := findMermaid text
  if ms.isEmpty then fallbackMatches text else ms

/-- The body of the cleanup loop of main.py (lines 163-168): strip the
match and keep it only when non-empty and of length strictly greater
than 10 (`if cleaned and len(cleaned) > 10`). -/
def keepLong (m : List Char) : Option (List Char) :=
  let cleaned := pyStrip m
  if cleaned ≠ [] ∧ 10 < cleaned.length then some cleaned else none

/-- src/main.py `BusinessAnalysisSystem._extract_mermaid_diagrams` (lines
140-172): gather matches, then apply the cleanup loop. -/
def extract_mermaid_diagrams (text : List Char) : List (List Char) :=
  (allMatches text).filterMap keepLong

end MainSys

/-- JSON values as parsed by Python `json.loads`; numbers are kept as their
lexemes, since no claim depends on numeric value. -/
inductive JsonVal where
  | null
  | bool (b : Bool)
  | num (lexeme : List Char)
  | str (s : List Char)
  | arr (elems : List JsonVal)
  | obj (fields : List (List Char × JsonVal))

/-- JSON insignificant whitespace. -/
def isJsonWs (c : Char) : Bool := c = ' ' || c = '\t' || c = '\n' || c = '\r'

/-- ASCII decimal digit test. -/
def isDigitCh (c : Char) : Bool := '0' ≤ c && c ≤ '9'

/-- Hexadecimal digit test for `\u` escapes. -/
def isHexCh (c : Char) : Bool := isDigitCh c || ('a' ≤ c && c ≤ 'f') || ('A' ≤ c && c ≤ 'F')

/-- Value of a hexadecimal digit. -/
def hexVal (c : Char) : Nat :=
  if isDigitCh c then c.toNat - 48
  else if 'a' ≤ c && c ≤ 'f' then c.toNat - 87
  else c.toNat - 55

/-- Simple JSON string escapes. -/
def escChar (c : Char) : Option Char :=
  if c = '"' then some '"'
  else if c = '\\' then some '\\'
  else if c = '/' then some '/'
  else if c = 'b' then some (Char.ofNat 8)
  else if c = 'f' then some (Char.ofNat 12)
  else if c = 'n' then some '\n'
  else if c = 'r' then some '\r'
  else if c = 't' then some '\t'
  else none

/-- JSON string body after the opening quote: decoded characters and the
remainder after the closing quote.  Unescaped control characters are
rejected, as Python's strict decoder does. -/
def parseStringBody : Nat → List Char → Option (List Char × List Char)
| 0, _ => none
| Nat.succ fuel, s =>
  match s with
  | [] => none
  | c :: rest =>
    if c = '"' then some ([], rest)
    else if c = '\\' then
      match rest with
      | 'u' :: h1 :: h2 :: h3 :: h4 :: rest4 =>
        if isHexCh h1 && isHexCh h2 && isHexCh h3 && isHexCh h4 then
          match parseStringBody fuel rest4 with
          | some (cs, r) =>
            some (Char.ofNat (((hexVal h1 * 16 + hexVal h2) * 16 + hexVal h3) * 16 + hexVal h4) :: cs, r)
          | none => none
        else none
      | e :: rest2 =>
        if e = 'u' then none
        else
          match escChar e with
          | some d =>
            match parseStringBody fuel rest2 with
            | some (cs, r) => some (d :: cs, r)
            | none => none
          | none => none
      | [] => none
    else if c.toNat < 32 then none
    else
      match parseStringBody fuel rest with
      | some (cs, r) => some (c :: cs, r)
      | none => none

/-- JSON number lexeme: `-? (0 | [1-9][0-9]*) (\.[0-9]+)? ([eE][+-]?[0-9]+)?`.
As in Python's decoder, a dot or exponent marker without digits simply ends
the number before it. -/
def parseNumber (s : List Char) : Option (List Char × List Char) :=
  let neg : Bool := match s with | '-' :: _ => true | _ => false
  let s1 := if neg then s.drop 1 else s
  match s1 with
  | [] => none
  | c :: _ =>
    if !isDigitCh c then none
    else
      let ip := if c = '0' then ['0'] else s1.takeWhile isDigitCh
      let r1 := if c = '0' then s1.drop 1 else s1.dropWhile isDigitCh
      let fp :=
        match r1 with
        | '.' :: r => if (r.takeWhile isDigitCh) = [] then [] else '.' :: r.takeWhile isDigitCh
        | _ => []
      let r2 := if fp = [] then r1 else (r1.drop 1).dropWhile isDigitCh
      let ep :=
        match r2 with
        | e :: r =>
          if e = 'e' || e = 'E' then
            match r with
            | s' :: r' =>
              if s' = '+' || s' = '-' then
                (if (r'.takeWhile isDigitCh) = [] then [] else e :: s' :: r'.takeWhile isDigitCh)
              else (if (r.takeWhile isDigitCh) = [] then [] else e :: r.takeWhile isDigitCh)
            | [] => []
          else []
        | [] => []
      let r3 := if ep = [] then r2 else (r2.drop ep.length)
      some ((if neg then ['-'] else []) ++ ip ++ fp ++ ep, r3)

mutual

/-- One JSON value (Python `json.loads` grammar, including the non-standard
`NaN` and `Infinity` literals Python accepts), returning the remainder. -/
def parseVal : Nat → List Char → Option (JsonVal × List Char)
| 0, _ => none
| Nat.succ fuel, s =>
  let s1 := s.dropWhile isJsonWs
  match s1 with
  | [] => none
  | c :: rest =>
    if c = '"' then
      match parseStringBody (Nat.succ fuel) rest with
      | some (cs, r) => some (.str cs, r)
      | none => none
    else if c = '[' then
      match rest.dropWhile isJsonWs with
      | ']' :: r2 => some (.arr [], r2)
      | _ => parseArrRest fuel [] rest
    else if c = Char.ofNat 123 then
      match rest.dropWhile isJsonWs with
      | d :: r2 => if d = Char.ofNat 125 then some (.obj [], r2) else parseObjRest fuel [] rest
      | [] => none
    else if c = 't' then
      if pfx "rue".toList rest then some (.bool true, rest.drop 3) else none
    else if c = 'f' then
      if pfx "alse".toList rest then some (.bool false, rest.drop 4) else none
    else if c = 'n' then
      if pfx "ull".toList rest then some (.null, rest.drop 3) else none
    else if c = 'N' then
      if pfx "aN".toList rest then some (.num "NaN".toList, rest.drop 2) else none
    else if c = 'I' then
      if pfx "nfinity".toList rest then some (.num "Infinity".toList, rest.drop 7) else none
    else if c = '-' && pfx "Infinity".toList rest then some (.num "-Infinity".toList, rest.drop 8)
    else
      match parseNumber s1 with
      | some (lex, r) => some (.num lex, r)
      | none => none

/-- Array elements after `[` (at least one element present). -/
def parseArrRest : Nat → List JsonVal → List Char → Option (JsonVal × List Char)
| 0, _, _ => none
| Nat.succ fuel, acc, s =>
  match parseVal fuel s with
  | none => none
  | some (v, r) =>
    match r.dropWhile isJsonWs with
    | ',' :: r2 => parseArrRest fuel (acc ++ [v]) r2
    | ']' :: r2 => some (.arr (acc ++ [v]), r2)
    | _ => none

/-- Object members after the opening brace (at least one member present). -/
def parseObjRest : Nat → List (List Char × JsonVal) → List Char → Option (JsonVal × List Char)
| 0, _, _ => none
| Nat.succ fuel, acc, s =>
  match s.dropWhile isJsonWs with
  | c :: rest =>
    if c = '"' then
      match parseStringBody (Nat.succ fuel) rest with
      | some (key, r) =>
        match r.dropWhile isJsonWs with
        | ':' :: r2 =>
          match parseVal fuel r2 with
          | some (v, r3) =>
            match r3.dropWhile isJsonWs with
            | ',' :: r5 => parseObjRest fuel (acc ++ [(key, v)]) r5
            | d :: r5 => if d = Char.ofNat 125 then some (.obj (acc ++ [(key, v)]), r5) else none
            | [] => none
          | none => none
        | _ => none
      | none => none
    else none
  | [] => none

end

/-- Python `json.loads`: parse one value, allow surrounding whitespace,
reject trailing garbage; `none` models a raised `json.JSONDecodeError`. -/
def json_loads (s : List Char) : Option JsonVal :=
  match parseVal (2 * s.length + 4) s with
  | some (v, r) => if (r.dropWhile isJsonWs).isEmpty then some v else none
  | none => none

/-- The fence marker `(backtick x3)json` that get_latest_results and the spec's
JSON extraction look for. -/
def jsonFence : List Char := bt :: bt :: bt :: 'j' :: 's' :: 'o' :: 'n' :: []

/-- Candidate amounts of whitespace the greedy `\s*` of
`re.search(r'```json\s*\n(.*?)\n```', ...)` can consume: positions of `\n`
inside the maximal whitespace run, largest first (greedy, then backtracking). -/
def candidateJs (w : List Char) : List Nat :=
  ((List.range w.length).filter (fun j => w.getD j ' ' = '\n')).reverse

/-- Backtracking over the `\s*\n` split: for each candidate (largest first),
the lazy group runs to the first `\n`-fence closer; the first candidate that
finds a closer wins. -/
def tryWsBacktrack : List Nat → List Char → Option (List Char)
| [], _ => none
| j :: js, afterOpen =>
  match splitFirst mClose (afterOpen.drop (j + 1)) with
  | some (grp, _) => some grp
  | none => tryWsBacktrack js afterOpen

/-- Attempt the regex `(backtick x3)json\s*\n(.*?)\n(backtick x3)` at one opener
occurrence; `afterOpen` is the text following the opener. -/
def tryFenceAt (afterOpen : List Char) : Option (List Char) :=
  tryWsBacktrack (candidateJs (afterOpen.takeWhile isSpacePy)) afterOpen

/-- `re.search(r'```json\s*\n(.*?)\n```', content, re.DOTALL)`: try each
opener occurrence left to right, returning the first group that completes. -/
def re_search_json_fence : Nat → List Char → Option (List Char)
| 0, _ => none
| Nat.succ fuel, s =>
  match splitFirst jsonFence s with
  | none => none
  | some (_, afterOpen) =>
    match tryFenceAt afterOpen with
    | some grp => some grp
    | none => re_search_json_fence fuel afterOpen

/-- src/api_backend.py get_latest_results (lines 115-127): the markdown
fence-removal applied to jira_artifacts.json content before `json.loads`.
Note the search-anywhere branch is only reachable when the stripped content
already starts with the json fence. -/
def clean_json_content (content : List Char) : List Char :=
  let stripped := pyStrip content
  if pfx jsonFence stripped then
    let lines := splitNl stripped
    if lines.headD [] = jsonFence ∧ lines.getLastD [] = [bt, bt, bt] then
      List.intercalate ['\n'] ((lines.drop 1).dropLast)
    else if containsSub jsonFence content then
      match re_search_json_fence (content.length + 1) content with
      | some grp => grp
      | none => content
    else content
  else content

/-- Outcome of loading the json artifact in get_latest_results: either a
parsed value, or — when `json.loads` raises `JSONDecodeError` — the raw
content stored as text, with the 200-character preview that is logged.
The latter is the `MalformedPayload` degradation of the spec. -/
inductive JsonFieldResult where
  | parsed (v : JsonVal)
  | malformed (stored : List Char) (preview : List Char)

/-- src/api_backend.py get_latest_results (lines 113-134): clean the content,
try `json.loads`, and on failure store the raw content as text (logging a
200-character preview); no exception escapes. -/
def load_json_field (content : List Char) : JsonFieldResult :=
  match json_loads (clean_json_content content) with
  | some v => .parsed v
  | none => .malformed content (content.take 200)

/-- Modelled from the spec: JSON extraction contract of §4.1 (the extractor
used by the Tracker Synchronizer lives in tools/jira_tool.py, which is not
under src/).  Strategy 1: the trimmed text starts with a fenced JSON block —
strip the fence markers and parse. -/
def strat1 (t : List Char) : Option JsonVal :=
  if pfx jsonFence t then
    let body := t.drop 7
    let body2 := if sfx [bt, bt, bt] body then body.take (body.length - 3) else body
    json_loads (pyStrip body2)
  else none

/-- Modelled from the spec (§4.1): strategy 2 — the first fenced JSON block
anywhere in the text. -/
def strat2 (text : List Char) : Option JsonVal :=
  match splitFirst jsonFence text with
  | some (_, afterOpen) =>
    match splitFirst [bt, bt, bt] afterOpen with
    | some (body, _) => json_loads (pyStrip body)
    | none => none
  | none => none

/-- Modelled from the spec (§4.1): `extract_json` degrades through three
strategies — leading fenced block, first fenced block anywhere, whole
trimmed text — and yields `none` (`MalformedPayload`) when all fail. -/
def extract_json (text : List Char) : Option JsonVal :=
  let t := pyStrip text
  (strat1 t).orElse (fun _ => (strat2 text).orElse (fun _ => json_loads t))

/-- An epic draft parsed from the structured payload (spec §3): local key
and title. -/
structure EpicDraft where
  key : List Char
  title : List Char
deriving DecidableEq

/-- A story draft parsed from the structured payload (spec §3): title and
the local key of its parent epic. -/
structure StoryDraft where
  title : List Char
  epic_key : List Char
deriving DecidableEq

/-- The structured payload of stage 3 (spec §4.3): an `epics` list and a
`stories` list. -/
structure Payload where
  epics : List EpicDraft
  stories : List StoryDraft
deriving DecidableEq

/-- A parsed, not-yet-created work item (spec glossary). -/
inductive WorkItemDraft where
  | epic (e : EpicDraft)
  | story (s : StoryDraft)
deriving DecidableEq

/-- Result of one tracker synchronization (spec §3): items created with
their external IDs, and items failed with reasons. -/
structure TrackerSyncResult where
  created : List (WorkItemDraft × List Char)
  failed : List (WorkItemDraft × List Char)
deriving DecidableEq

/-- Field lookup in a parsed JSON object. -/
def jGet (fs : List (List Char × JsonVal)) (k : List Char) : Option JsonVal :=
  (fs.find? (fun kv => decide (kv.1 = k))).map Prod.snd

/-- Elements of an array-valued field, defaulting to the empty list. -/
def arrOf (fs : List (List Char × JsonVal)) (k : List Char) : List JsonVal :=
  match jGet fs k with
  | some (.arr xs) => xs
  | _ => []

/-- Modelled from the spec (§4.3): decode one epic object of the payload. -/
def decodeEpic : JsonVal → Option EpicDraft
| .obj fs =>
  match jGet fs "key".toList, jGet fs "title".toList with
  | some (.str k), some (.str t) => some ⟨k, t⟩
  | _, _ => none
| _ => none

/-- Modelled from the spec (§4.3): decode one story object of the payload,
carrying the local key of its parent epic. -/
def decodeStory : JsonVal → Option StoryDraft
| .obj fs =>
  match jGet fs "title".toList, jGet fs "epic_key".toList with
  | some (.str t), some (.str k) => some ⟨t, k⟩
  | _, _ => none
| _ => none

/-- Modelled from the spec (§4.3): the payload is expected to contain an
`epics` list and a `stories` list. -/
def decodePayload : JsonVal → Option Payload
| .obj fs =>
  some ⟨(arrOf fs "epics".toList).filterMap decodeEpic,
        (arrOf fs "stories".toList).filterMap decodeStory⟩
| _ => none

/-- Modelled from the spec (§4.3): `parse_work_items` — JSON extraction
followed by payload decoding; `none` is the `MalformedPayload` case. -/
def parse_work_items (raw : List Char) : Option Payload :=
  (extract_json raw).bind decodePayload

/-- Per-item creation loop shared by epics and stories (spec §4.3): attempt
each item in order; successes are recorded with their external ID, failures
with their reason, and one failure never aborts the batch. -/
def syncList {α : Type} (attempt : α → Except (List Char) (List Char)) :
    List α → List (α × List Char) × List (α × List Char)
| [] => ([], [])
| x :: xs =>
  match attempt x, syncList attempt xs with
  | .ok i, (cs, fs) => ((x, i) :: cs, fs)
  | .error e, (cs, fs) => (cs, (x, e) :: fs)

/-- Modelled from the spec: `sync` of the Tracker Synchronizer (§4.3,
tools/jira_tool.py is not under src/).  Epics are created before stories;
a story whose epic key does not resolve within the payload is recorded as
failed (collected, not fatal); every remote error is recorded per item and
the batch continues. -/
def sync (tracker : WorkItemDraft → Except (List Char) (List Char)) (p : Payload) :
    TrackerSyncResult :=
  let er := syncList (fun e => tracker (.epic e)) p.epics
  let sr := syncList
    (fun s =>
      if p.epics.any (fun e => decide (e.key = s.epic_key)) then tracker (.story s)
      else .error ("Unresolved epic key: ".toList ++ s.epic_key))
    p.stories
  ⟨er.1.map (fun q => (.epic q.1, q.2)) ++ sr.1.map (fun q => (.story q.1, q.2)),
   er.2.map (fun q => (.epic q.1, q.2)) ++ sr.2.map (fun q => (.story q.1, q.2))⟩

/-- The mapping returned by JiraTool.process_project_manager_output as read
by main.py (`jira_result.get('epics')`, `jira_result.get('stories')`):
the created epics and created stories with their external IDs. -/
structure JiraResult where
  epics : List (EpicDraft × List Char)
  stories : List (StoryDraft × List Char)
deriving DecidableEq

/-- Select the epic part of one created item. -/
def epicSide (q : WorkItemDraft × List Char) : Option (EpicDraft × List Char) :=
  match q.1 with
  | .epic e => some (e, q.2)
  | _ => none

/-- Select the story part of one created item. -/
def storySide (q : WorkItemDraft × List Char) : Option (StoryDraft × List Char) :=
  match q.1 with
  | .story s => some (s, q.2)
  | _ => none

/-- Partition of a sync result's created items by kind, giving the `epics`
and `stories` lists whose lengths main.py's summary counts read. -/
def mkJiraResult (r : TrackerSyncResult) : JiraResult :=
  ⟨r.created.filterMap epicSide, r.created.filterMap storySide⟩

/-- Modelled from the spec: `JiraTool.process_project_manager_output`
(tools/jira_tool.py is not under src/).  Per §4.3 it parses the stage-3
payload into work-item drafts and synchronizes them against the tracker;
per §7 a malformed payload degrades to an empty result rather than halting. -/
def process_project_manager_output
    (tracker : WorkItemDraft → Except (List Char) (List Char)) (raw : List Char) : JiraResult :=
  match parse_work_items raw with
  | none => ⟨[], []⟩
  | some p => mkJiraResult (sync tracker p)

/-- The inputs dict passed to `crew.kickoff` in process_user_input. -/
structure Inputs where
  user_input : List Char
  project_key : List Char

/-- One pipeline stage as an opaque completion call: from the kickoff inputs
and the raw outputs of the earlier stages to raw text or a failure reason. -/
abbrev StageFn := Inputs → List (List Char) → Except (List Char) (List Char)

/-- The object returned by `crew.kickoff`: per-task raw outputs and the raw
text of the final task. -/
structure CrewOutput where
  tasks_output : List (List Char)
  raw : List Char

/-- Run the stages strictly in order, each receiving all earlier raw
outputs as context; the first failure aborts the remaining stages. -/
def runStages (inp : Inputs) : List StageFn → List (List Char) → Except (List Char) (List (List Char))
| [], acc => .ok acc
| f :: fs, acc =>
  match f inp acc with
  | .error e => .error e
  | .ok o => runStages inp fs (acc ++ [o])

/-- Modelled from the spec: `crew.kickoff` of the sequential Crew (the crewai
executor is an external collaborator; §4.2 fixes its execution model:
strictly sequential, stage N+1 never starts before stage N finishes, and a
failed completion call surfaces as a raised error to the caller). -/
def kickoff (stages : List StageFn) (inp : Inputs) : Except (List Char) CrewOutput :=
  match runStages inp stages [] with
  | .error e => .error e
  | .ok outs => .ok ⟨outs, outs.getLastD []⟩

/-- The dict returned by BusinessAnalysisSystem.process_user_input; `none`
fields model keys absent from the Python dict (the error dict carries only
`status` and `error_message`). -/
structure PResult where
  status : List Char
  error_message : Option (List Char) := none
  business_requirements : Option (List Char) := none
  jira_artifacts : Option (List Char) := none
  jira_artifacts_raw : Option (List Char) := none
  jira_issues_created : Option JiraResult := none
  technical_documentation : Option (List Char) := none
  mermaid_diagrams : Option (List (List Char)) := none
deriving DecidableEq

/-- src/main.py `BusinessAnalysisSystem.process_user_input` (lines 66-138):
run the crew; on any raised error return `{'status': 'error',
'error_message': ...}`; on success read the three task outputs by index,
fall back to the overall raw text when the first is empty, process the
project-manager output through the jira tool, and build the summary
`Created N epics and M stories in Jira` from the lengths of the returned
`epics` and `stories` lists. -/
def process_user_input (tracker : WorkItemDraft → Except (List Char) (List Char))
    (stages : List StageFn) (user_input : List Char) (project_key : Option (List Char)) : PResult :=
  let inp : Inputs := ⟨user_input, project_key.getD "DEFAULT".toList⟩
  match kickoff stages inp with
  | .error e => { status := "error".toList, error_message := some e }
  | .ok result =>
    let t := result.tasks_output
    let business_req := if t.length > 0 then t.getD 0 [] else []
    let technical_doc := if t.length > 1 then t.getD 1 [] else []
    let jira_raw := if t.length > 2 then t.getD 2 [] else []
    let technical_doc2 := if business_req.isEmpty then result.raw else technical_doc
    let jira_result := process_project_manager_output tracker jira_raw
    let jira_summary := "Created ".toList ++ natChars jira_result.epics.length ++
      " epics and ".toList ++ natChars jira_result.stories.length ++ " stories in Jira".toList
    { status := "completed".toList,
      business_requirements := some business_req,
      jira_artifacts := some jira_summary,
      jira_artifacts_raw := some jira_raw,
      jira_issues_created := some jira_result,
      technical_documentation := some technical_doc2,
      mermaid_diagrams := some (MainSys.extract_mermaid_diagrams technical_doc2) }

/-- Build a text out of interleaved separators and well-fenced diagram
blocks: `sep1 ++ fence(code1) ++ sep2 ++ fence(code2) ++ ... ++ tail`.
Quantifying over this shape (with backtick-free separators and codes, so
the fences are unambiguous) formalizes "input text containing N well-fenced
diagram blocks". -/
def buildText : List (List Char × List Char) → List Char → List Char
| [], tail => tail
| (sep, code) :: rest, tail => sep ++ (mOpen ++ (code ++ (mClose ++ buildText rest tail)))

/-- A tracker on which every remote creation succeeds. -/
def okTracker : WorkItemDraft → Except (List Char) (List Char) := fun _ => .ok "JIRA-1".toList

/-- A three-stage pipeline whose second stage fails. -/
def C1stages : List StageFn :=
  [fun _ _ => .ok "REQS".toList,
   fun _ _ => .error "provider timeout".toList,
   fun _ _ => .ok "X".toList]

/-- A text whose fenced JSON block is preceded by prose, so it does not
start with the fence. -/
def C2input : List Char := "See below:\n```json\n\x7b\"a\": 1\x7d\n```".toList

/-- A parsed batch of 2 epics and 3 stories in which exactly the third
story references the nonexistent epic key E3. -/
def C3payload : Payload :=
  ⟨[⟨"E1".toList, "Epic One".toList⟩, ⟨"E2".toList, "Epic Two".toList⟩],
   [⟨"Story A".toList, "E1".toList⟩, ⟨"Story B".toList, "E2".toList⟩,
    ⟨"Story C".toList, "E3".toList⟩]⟩

/-- A stage-3 raw output carrying a fenced JSON payload with 2 epics and
0 stories. -/
def C5raw : List Char :=
  "```json\n\x7b\"epics\": [\x7b\"key\": \"E1\", \"title\": \"Epic One\"\x7d, \x7b\"key\": \"E2\", \"title\": \"Epic Two\"\x7d], \"stories\": []\x7d\n```".toList

/-- The payload parsed from C5raw. -/
def C5payload : Payload :=
  ⟨[⟨"E1".toList, "Epic One".toList⟩, ⟨"E2".toList, "Epic Two".toList⟩], []⟩

/-- A pipeline in which all three stages succeed and stage 3 emits C5raw. -/
def C5stages : List StageFn :=
  [fun _ _ => .ok "Business requirements document".toList,
   fun _ _ => .ok "Technical design document".toList,
   fun _ _ => .ok C5raw]

/-- A text with zero fenced blocks and one recognizable flow-diagram body. -/
def C6input : List Char := "graph TD\nA --> B\nB --> C".toList

/-- A fenced diagram whose code has trimmed length exactly 10. -/
def C7input : List Char := ("```mermaid\ngraph TD;A\n```").toList

/-- A fenced diagram whose code has trimmed length 2. -/
def C9input : List Char := "```mermaid\nhi\n```".toList

lemma pfx_iff (a : List Char) : ∀ b : List Char, pfx a b = true ↔ ∃ r, b = a ++ r := by
  induction a with
  | nil => intro b; simp [pfx]
  | cons x xs ih =>
    intro b
    cases b with
    | nil =>
      simp only [pfx, List.cons_append]
      constructor
      · intro h; cases h
      · rintro ⟨r, hr⟩; cases hr
    | cons y ys =>
      simp only [pfx, Bool.and_eq_true, beq_iff_eq, List.cons_append, List.cons.injEq]
      constructor
      · rintro ⟨hxy, h⟩
        obtain ⟨r, hr⟩ := (ih ys).mp h
        exact ⟨r, hxy.symm, hr⟩
      · rintro ⟨r, hy, hr⟩
        exact ⟨hy.symm, (ih ys).mpr ⟨r, hr⟩⟩

lemma pfx_append_self (a r : List Char) : pfx a (a ++ r) = true :=
  (pfx_iff a (a ++ r)).mpr ⟨r, rfl⟩

lemma pfx_cons_false (a : Char) (as : List Char) (b : Char) (bs : List Char) (h : a ≠ b) :
    pfx (a :: as) (b :: bs) = false := by
  simp only [pfx, Bool.and_eq_false_iff]
  left
  exact beq_eq_false_iff_ne.mpr h

lemma splitFirst_of_pfx (pat s : List Char) (h : pfx pat s = true) :
    splitFirst pat s = some ([], s.drop pat.length) := by
  cases s with
  | nil =>
    cases pat with
    | nil => simp [splitFirst, pfx]
    | cons p ps => simp [pfx] at h
  | cons c rest => simp [splitFirst, h]

lemma splitFirst_append_notin (c0 : Char) (pt : List Char) :
    ∀ (sep rest : List Char), c0 ∉ sep →
      splitFirst (c0 :: pt) (sep ++ ((c0 :: pt) ++ rest)) = some (sep, rest) := by
  intro sep
  induction sep with
  | nil =>
    intro rest _
    rw [List.nil_append, splitFirst_of_pfx _ _ (pfx_append_self _ _)]
    congr 1
    rw [Prod.mk.injEq]
    exact ⟨rfl, List.drop_left _ _⟩
  | cons c sep' ih =>
    intro rest h
    have hc : c0 ≠ c := fun e => h (by simp [e])
    have h' : c0 ∉ sep' := fun e => h (List.mem_cons_of_mem _ e)
    have hp : pfx (c0 :: pt) (c :: (sep' ++ ((c0 :: pt) ++ rest))) = false :=
      pfx_cons_false _ _ _ _ hc
    rw [List.cons_append, splitFirst, hp]
    simp only [Bool.false_eq_true, if_false]
    rw [ih rest h']

lemma splitFirst_none_notin (c0 : Char) (pt : List Char) :
    ∀ l : List Char, c0 ∉ l → splitFirst (c0 :: pt) l = none := by
  intro l
  induction l with
  | nil => intro _; simp [splitFirst, pfx]
  | cons c l' ih =>
    intro h
    have hc : c0 ≠ c := fun e => h (by simp [e])
    have h' : c0 ∉ l' := fun e => h (List.mem_cons_of_mem _ e)
    rw [splitFirst, pfx_cons_false _ _ _ _ hc]
    simp only [Bool.false_eq_true, if_false]
    rw [ih h']

lemma mOpen_cons : mOpen = bt :: (bt :: bt :: 'm' :: 'e' :: 'r' :: 'm' :: 'a' :: 'i' :: 'd' :: '\n' :: []) := rfl

lemma splitFirst_mOpen_append (sep rest : List Char) (h : bt ∉ sep) :
    splitFirst mOpen (sep ++ (mOpen ++ rest)) = some (sep, rest) := by
  rw [mOpen_cons]
  exact splitFirst_append_notin bt _ sep rest h

lemma splitFirst_mOpen_none (l : List Char) (h : bt ∉ l) : splitFirst mOpen l = none := by
  rw [mOpen_cons]
  exact splitFirst_none_notin bt _ l h

lemma bt_ne_nl : bt ≠ '\n' := by decide

lemma pfx_mClose_false (c : Char) (l : List Char)
    (h : ∀ d, l.head? = some d → d ≠ bt) : pfx mClose (c :: l) = false := by
  by_cases hc : c = '\n'
  · subst hc
    show pfx ('\n' :: bt :: bt :: bt :: []) ('\n' :: l) = false
    simp only [pfx, beq_self_eq_true, Bool.true_and]
    cases l with
    | nil => rfl
    | cons d l' =>
      exact pfx_cons_false _ _ _ _ (Ne.symm (h d rfl))
  · exact pfx_cons_false _ _ _ _ (fun e => hc e.symm)

lemma splitFirst_mClose_append : ∀ (code rest : List Char), bt ∉ code →
    splitFirst mClose (code ++ (mClose ++ rest)) = some (code, rest) := by
  intro code
  induction code with
  | nil =>
    intro rest _
    rw [List.nil_append, splitFirst_of_pfx _ _ (pfx_append_self _ _), List.drop_left]
  | cons c code' ih =>
    intro rest h
    have h' : bt ∉ code' := fun e => h (List.mem_cons_of_mem _ e)
    have hhead : ∀ d, (code' ++ (mClose ++ rest)).head? = some d → d ≠ bt := by
      intro d hd
      cases code' with
      | nil =>
        rw [List.nil_append] at hd
        have : d = '\n' := by
          rw [show mClose ++ rest = '\n' :: (bt :: bt :: bt :: rest) from rfl] at hd
          simp at hd
          exact hd.symm
        rw [this]
        decide
      | cons e code'' =>
        simp at hd
        intro hdd
        rw [hdd] at hd
        exact h' (by rw [hd]; exact List.mem_cons_self _ _)
    have hp : pfx mClose (c :: (code' ++ (mClose ++ rest))) = false :=
      pfx_mClose_false _ _ hhead
    rw [List.cons_append, splitFirst, hp]
    simp only [Bool.false_eq_true, if_false]
    rw [ih rest h']

lemma splitFirst_mClose_none : ∀ l : List Char, bt ∉ l → splitFirst mClose l = none := by
  intro l
  induction l with
  | nil => intro _; rfl
  | cons c l' ih =>
    intro h
    have h' : bt ∉ l' := fun e => h (List.mem_cons_of_mem _ e)
    have hhead : ∀ d, l'.head? = some d → d ≠ bt := by
      intro d hd
      cases l' with
      | nil => simp at hd
      | cons e l'' =>
        simp at hd
        intro hdd
        rw [hdd] at hd
        exact h' (by rw [hd]; exact List.mem_cons_self _ _)
    rw [splitFirst, pfx_mClose_false _ _ hhead]
    simp only [Bool.false_eq_true, if_false]
    rw [ih h']

lemma findBlocks_build : ∀ (pairs : List (List Char × List Char)) (fuel : Nat) (tail : List Char),
    pairs.length < fuel → (∀ q ∈ pairs, bt ∉ q.1 ∧ bt ∉ q.2) → bt ∉ tail →
    findBlocks fuel (buildText pairs tail) = pairs.map Prod.snd := by
  intro pairs
  induction pairs with
  | nil =>
    intro fuel tail hf _ htail
    cases fuel with
    | zero => omega
    | succ f => simp [buildText, findBlocks, splitFirst_mOpen_none tail htail]
  | cons q pairs' ih =>
    intro fuel tail hf hq htail
    obtain ⟨sep, code⟩ := q
    cases fuel with
    | zero => simp at hf
    | succ f =>
      have h1 : bt ∉ sep := (hq (sep, code) (List.mem_cons_self _ _)).1
      have h2 : bt ∉ code := (hq (sep, code) (List.mem_cons_self _ _)).2
      have hq' : ∀ r ∈ pairs', bt ∉ r.1 ∧ bt ∉ r.2 := fun r hr => hq r (List.mem_cons_of_mem _ hr)
      have hf' : pairs'.length < f := by simp at hf; omega
      have e1 := splitFirst_mOpen_append sep (code ++ (mClose ++ buildText pairs' tail)) h1
      have e2 := splitFirst_mClose_append code (buildText pairs' tail) h2
      simp only [buildText, findBlocks, e1, e2, ih f tail hf' hq' htail, List.map_cons]

lemma buildText_length_ge : ∀ (pairs : List (List Char × List Char)) (tail : List Char),
    pairs.length ≤ (buildText pairs tail).length := by
  intro pairs
  induction pairs with
  | nil => intro t; simp [buildText]
  | cons q pairs' ih =>
    intro t
    obtain ⟨sep, code⟩ := q
    have h1 := ih t
    have h2 : mOpen.length = 11 := rfl
    have h3 : mClose.length = 4 := rfl
    simp only [buildText, List.length_append, List.length_cons]
    omega

lemma findMermaid_build (pairs : List (List Char × List Char)) (tail : List Char)
    (hq : ∀ q ∈ pairs, bt ∉ q.1 ∧ bt ∉ q.2) (htail : bt ∉ tail) :
    findMermaid (buildText pairs tail) = pairs.map Prod.snd :=
  findBlocks_build pairs _ tail (by have := buildText_length_ge pairs tail; omega) hq htail

lemma numberFrom_length : ∀ (ms : List (List Char)) (j : Nat), (numberFrom j ms).length = ms.length := by
  intro ms
  induction ms with
  | nil => intro j; rfl
  | cons m ms' ih => intro j; simp [numberFrom, ih]

lemma numberFrom_get? : ∀ (ms : List (List Char)) (j i : Nat),
    (numberFrom j ms)[i]? =
      (ms[i]?).map (fun m => ExtractedDiagram.mk ("Diagram ".toList ++ natChars (j + i)) (pyStrip m)) := by
  intro ms
  induction ms with
  | nil => intro j i; simp [numberFrom]
  | cons m ms' ih =>
    intro j i
    cases i with
    | zero => simp [numberFrom]
    | succ i' =>
      simp only [numberFrom, List.getElem?_cons_succ]
      rw [ih (j + 1) i', show j + 1 + i' = j + (i' + 1) from by omega]

lemma numberFrom_map_code : ∀ (ms : List (List Char)) (j : Nat),
    (numberFrom j ms).map ExtractedDiagram.code = ms.map pyStrip := by
  intro ms
  induction ms with
  | nil => intro j; rfl
  | cons m ms' ih => intro j; simp [numberFrom, ih]

lemma api_some_eq_core : ∀ t : List Char,
    Api.extract_mermaid_diagrams (some t) = Api.extract_core t := by
  intro t
  cases t with
  | nil => rfl
  | cons c t' => simp [Api.extract_mermaid_diagrams]


lemma syncList_perm {α : Type} (attempt : α → Except (List Char) (List Char)) :
    ∀ l : List α,
      ((syncList attempt l).1.map Prod.fst ++ (syncList attempt l).2.map Prod.fst).Perm l := by
  intro l
  induction l with
  | nil => simp [syncList]
  | cons x xs ih =>
    rcases hr : syncList attempt xs with ⟨cs, fs⟩
    rw [hr] at ih
    cases hx : attempt x with
    | ok i =>
      simp only [syncList, hx, hr, List.map_cons, List.cons_append]
      exact ih.cons x
    | error e =>
      simp only [syncList, hx, hr, List.map_cons]
      exact List.perm_middle.trans (ih.cons x)

lemma perm_app_swap {α : Type} (a b c d : List α) :
    ((a ++ b) ++ (c ++ d)).Perm ((a ++ c) ++ (b ++ d)) := by
  have h : (b ++ (c ++ d)).Perm (c ++ (b ++ d)) := by
    rw [← List.append_assoc, ← List.append_assoc]
    exact List.perm_append_comm.append_right d
  rw [List.append_assoc, List.append_assoc]
  exact h.append_left a

lemma sync_partition (tracker : WorkItemDraft → Except (List Char) (List Char)) (p : Payload) :
    ((sync tracker p).created.map Prod.fst ++ (sync tracker p).failed.map Prod.fst).Perm
      (p.epics.map WorkItemDraft.epic ++ p.stories.map WorkItemDraft.story) := by
  have he := (syncList_perm (fun e => tracker (.epic e)) p.epics).map WorkItemDraft.epic
  have hs := (syncList_perm
    (fun s =>
      if p.epics.any (fun e => decide (e.key = s.epic_key)) then tracker (.story s)
      else .error ("Unresolved epic key: ".toList ++ s.epic_key)) p.stories).map WorkItemDraft.story
  simp only [List.map_append, List.map_map] at he hs
  simp only [sync, List.map_append, List.map_map]
  refine (perm_app_swap _ _ _ _).trans ?_
  have hcomp1 :
      (Prod.fst ∘ fun q : EpicDraft × List Char => ((WorkItemDraft.epic q.1 : WorkItemDraft), q.2)) =
      (WorkItemDraft.epic ∘ Prod.fst) := rfl
  have hcomp2 :
      (Prod.fst ∘ fun q : StoryDraft × List Char => ((WorkItemDraft.story q.1 : WorkItemDraft), q.2)) =
      (WorkItemDraft.story ∘ Prod.fst) := rfl
  rw [hcomp1, hcomp2]
  exact he.append hs

lemma created_partition_length : ∀ l : List (WorkItemDraft × List Char),
    (l.filterMap epicSide).length + (l.filterMap storySide).length = l.length := by
  intro l
  induction l with
  | nil => rfl
  | cons q l' ih =>
    obtain ⟨it, ident⟩ := q
    cases it with
    | epic e =>
      simp only [List.filterMap_cons, epicSide, storySide, List.length_cons]
      omega
    | story s =>
      simp only [List.filterMap_cons, epicSide, storySide, List.length_cons]
      omega

lemma mem_extract_length (text c : List Char)
    (h : c ∈ MainSys.extract_mermaid_diagrams text) : 10 < c.length := by
  obtain ⟨m, _, he⟩ := List.mem_filterMap.mp h
  simp only [MainSys.keepLong] at he
  by_cases hcond : (pyStrip m ≠ [] ∧ 10 < (pyStrip m).length)
  · rw [if_pos hcond] at he
    rw [← Option.some.inj he]
    exact hcond.2
  · rw [if_neg hcond] at he
    cases he

lemma extract_keeps (text m : List Char) (h : m ∈ MainSys.allMatches text)
    (hl : 10 < (pyStrip m).length) :
    pyStrip m ∈ MainSys.extract_mermaid_diagrams text := by
  apply List.mem_filterMap.mpr
  refine ⟨m, h, ?_⟩
  have hne : pyStrip m ≠ [] := by
    intro e
    rw [e] at hl
    simp at hl
  simp only [MainSys.keepLong]
  rw [if_pos ⟨hne, hl⟩]

lemma filterMap_keepLong_eq : ∀ ms : List (List Char),
    ms.filterMap MainSys.keepLong =
      (ms.map pyStrip).filter (fun c => decide (c ≠ [] ∧ 10 < c.length)) := by
  intro ms
  induction ms with
  | nil => rfl
  | cons m ms' ih =>
    simp only [List.filterMap_cons, List.map_cons, List.filter_cons]
    by_cases hc : (pyStrip m ≠ [] ∧ 10 < (pyStrip m).length)
    · simp only [MainSys.keepLong]
      rw [if_pos hc, ih]
      simp [hc]
    · simp only [MainSys.keepLong]
      rw [if_neg hc, ih]
      simp [hc]

lemma splitFirst_isSome_parts : ∀ (pre pat suf : List Char),
    (splitFirst pat (pre ++ (pat ++ suf))).isSome = true := by
  intro pre
  induction pre with
  | nil =>
    intro pat suf
    rw [List.nil_append, splitFirst_of_pfx _ _ (pfx_append_self _ _)]
    rfl
  | cons c pre' ih =>
    intro pat suf
    rw [List.cons_append]
    by_cases hp : pfx pat (c :: (pre' ++ (pat ++ suf))) = true
    · rw [splitFirst, if_pos hp]
      rfl
    · have hih := ih pat suf
      rcases h2 : splitFirst pat (pre' ++ (pat ++ suf)) with _ | ⟨pre2, post2⟩
      · rw [h2] at hih
        simp at hih
      · rw [splitFirst, if_neg hp, h2]
        rfl

lemma dropWhile_decomp (p : Char → Bool) : ∀ l : List Char, ∃ t, l = t ++ l.dropWhile p := by
  intro l
  induction l with
  | nil => exact ⟨[], rfl⟩
  | cons c l' ih =>
    by_cases hc : p c = true
    · obtain ⟨t, ht⟩ := ih
      exact ⟨c :: t, by rw [List.dropWhile_cons, if_pos hc, List.cons_append, ← ht]⟩
    · exact ⟨[], by rw [List.dropWhile_cons, if_neg hc, List.nil_append]⟩

lemma pyStrip_decomp (l : List Char) : ∃ t u, l = t ++ (pyStrip l ++ u) := by
  obtain ⟨t, ht0⟩ := dropWhile_decomp isSpacePy l
  have ht : l = t ++ lstrip l := ht0
  obtain ⟨t2, ht2⟩ := dropWhile_decomp isSpacePy (lstrip l).reverse
  have h3 := congrArg List.reverse ht2
  rw [List.reverse_reverse, List.reverse_append] at h3
  have hD : lstrip l = pyStrip l ++ t2.reverse := h3
  refine ⟨t, t2.reverse, ?_⟩
  rw [hD] at ht
  exact ht

lemma containsSub_of_pfx_strip (pat content : List Char)
    (h : pfx pat (pyStrip content) = true) : containsSub pat content = true := by
  obtain ⟨r, hr⟩ := (pfx_iff pat (pyStrip content)).mp h
  obtain ⟨t, u, hd⟩ := pyStrip_decomp content
  rw [hr] at hd
  have hd2 : content = t ++ (pat ++ (r ++ u)) := by rw [hd, List.append_assoc]
  rw [containsSub, hd2]
  exact splitFirst_isSome_parts t pat (r ++ u)

/-- C1 (counterexample): for the pipeline `C1stages`, whose stage 2 fails
after stage 1 succeeded with output "REQS", process_user_input returns the
bare error dict: status is "error" (not Partially-Failed), no per-stage
statuses exist, and the completed stage-1 output is discarded (the
business_requirements, technical_documentation and jira_artifacts fields
are all absent) — contradicting the claim that completed stage outputs are
carried in the result. -/
theorem C1_counterexample :
    (process_user_input okTracker C1stages "build an app".toList none).status = "error".toList ∧
    (process_user_input okTracker C1stages "build an app".toList none).error_message =
      some "provider timeout".toList ∧
    (process_user_input okTracker C1stages "build an app".toList none).business_requirements = none ∧
    (process_user_input okTracker C1stages "build an app".toList none).technical_documentation = none ∧
    (process_user_input okTracker C1stages "build an app".toList none).jira_artifacts = none :=
  ⟨rfl, rfl, rfl, rfl, rfl⟩

/-- C1 (amended): if an intermediate stage (stage 2 of 3) fails after
stage 1 succeeded, process_user_input returns a result whose status is
"error" carrying the failure reason in error_message and nothing else;
stage 3 is never attempted (the result is independent of the third stage
function), but no per-stage statuses are reported and stage 1's completed
output is discarded rather than carried. -/
theorem C1_amended_error_result
    (tracker : WorkItemDraft → Except (List Char) (List Char))
    (user_input : List Char) (project_key : Option (List Char))
    (f1 f3 f3' : StageFn) (o e : List Char)
    (h : f1 ⟨user_input, project_key.getD "DEFAULT".toList⟩ [] = .ok o) :
    process_user_input tracker [f1, fun _ _ => .error e, f3] user_input project_key =
      { status := "error".toList, error_message := some e } ∧
    process_user_input tracker [f1, fun _ _ => .error e, f3] user_input project_key =
      process_user_input tracker [f1, fun _ _ => .error e, f3'] user_input project_key := by
  constructor <;> simp only [process_user_input, kickoff, runStages, h, List.nil_append]

/-- C1 (witness): the amended theorem applied to a concrete pipeline. -/
theorem C1_amended_error_result_witness :
    process_user_input okTracker
        [fun _ _ => .ok "REQS".toList, fun _ _ => .error "boom".toList,
         fun _ _ => .ok "X".toList] "in".toList none =
      { status := "error".toList, error_message := some "boom".toList } :=
  (C1_amended_error_result okTracker "in".toList none
    (fun _ _ => .ok "REQS".toList) (fun _ _ => .ok "X".toList)
    (fun _ _ => .ok "Y".toList) "REQS".toList "boom".toList rfl).1

/-- C2 (counterexample): `C2input` contains a fenced JSON block whose body
parses, yet because the trimmed text does not start with the fence, the
code of get_latest_results never searches for the block: it attempts to
parse the whole text, fails, and degrades to the malformed-payload result.
This refutes the claimed second strategy (find the first fenced JSON block
anywhere in the text). -/
theorem C2_counterexample :
    containsSub jsonFence C2input = true ∧
    (json_loads ("\x7b\"a\": 1\x7d".toList)).isSome = true ∧
    load_json_field C2input = .malformed C2input (C2input.take 200) :=
  ⟨rfl, rfl, rfl⟩

/-- C2 (amended): the JSON loading of get_latest_results strips fence
markers only when the trimmed content starts with the json fence (a fenced
block not at the start is never found); for input with no json fence at
all and a body that `json.loads` rejects, it degrades to the structured
malformed result storing the raw text, with a 200-character preview, and
no fault escapes. -/
theorem C2_amended_malformed (content : List Char)
    (hfence : containsSub jsonFence content = false)
    (hparse : json_loads content = none) :
    load_json_field content = .malformed content (content.take 200) := by
  have hp : pfx jsonFence (pyStrip content) = false := by
    cases hb : pfx jsonFence (pyStrip content) with
    | false => rfl
    | true =>
      have hcc := containsSub_of_pfx_strip jsonFence content hb
      rw [hfence] at hcc
      simp at hcc
  have hclean : clean_json_content content = content := by
    simp [clean_json_content, hp]
  simp [load_json_field, hclean, hparse]

/-- C2 (witness): the amended theorem applied to the fence-free non-JSON
input "hello world". -/
theorem C2_amended_malformed_witness :
    load_json_field "hello world".toList =
      .malformed "hello world".toList (("hello world".toList).take 200) :=
  C2_amended_malformed "hello world".toList rfl rfl

/-- C3: on the parsed batch `C3payload` of 2 epics and 3 stories in which
only "Story C" references the nonexistent epic key E3, sync (with an
all-succeeding tracker) creates the 2 epics and the 2 resolvable stories
(4 created, in epics-before-stories order), reports exactly 1 failed entry
(the unresolved story), and — for every tracker and payload — the items of
created and failed together are a permutation of the parsed set, so every
item appears in exactly one of the two lists. -/
theorem C3_sync_isolated_failure :
    ((sync okTracker C3payload).created.map Prod.fst =
      [.epic ⟨"E1".toList, "Epic One".toList⟩, .epic ⟨"E2".toList, "Epic Two".toList⟩,
       .story ⟨"Story A".toList, "E1".toList⟩, .story ⟨"Story B".toList, "E2".toList⟩] ∧
     (sync okTracker C3payload).failed.map Prod.fst = [.story ⟨"Story C".toList, "E3".toList⟩] ∧
     (sync okTracker C3payload).created.length = 4 ∧
     (sync okTracker C3payload).failed.length = 1) ∧
    ∀ (tracker : WorkItemDraft → Except (List Char) (List Char)) (p : Payload),
      ((sync tracker p).created.map Prod.fst ++ (sync tracker p).failed.map Prod.fst).Perm
        (p.epics.map WorkItemDraft.epic ++ p.stories.map WorkItemDraft.story) :=
  ⟨⟨rfl, rfl, rfl, rfl⟩, sync_partition⟩

/-- C4: for any text built of N well-fenced diagram blocks (separators and
codes free of backticks, so the fences are unambiguous), the API backend's
extraction returns exactly N diagrams, in source order, each code trimmed
of surrounding whitespace and titled sequentially "Diagram 1",
"Diagram 2", and so on. -/
theorem C4_fenced_diagram_extraction (pairs : List (List Char × List Char)) (tail : List Char)
    (hq : ∀ q ∈ pairs, bt ∉ q.1 ∧ bt ∉ q.2) (htail : bt ∉ tail) :
    (Api.extract_mermaid_diagrams (some (buildText pairs tail))).length = pairs.length ∧
    ∀ (i : Nat) (h : i < pairs.length),
      (Api.extract_mermaid_diagrams (some (buildText pairs tail)))[i]? =
        some ⟨"Diagram ".toList ++ natChars (i + 1), pyStrip (pairs.get ⟨i, h⟩).2⟩ := by
  have hfm := findMermaid_build pairs tail hq htail
  have hapi : Api.extract_mermaid_diagrams (some (buildText pairs tail)) =
      numberFrom 1 (pairs.map Prod.snd) := by
    rw [api_some_eq_core]
    simp only [Api.extract_core]
    rw [hfm]
  constructor
  · rw [hapi, numberFrom_length, List.length_map]
  · intro i h
    rw [hapi, numberFrom_get?, Nat.add_comm 1 i]
    have h2 : i < (pairs.map Prod.snd).length := by
      rw [List.length_map]
      exact h
    rw [List.getElem?_eq_getElem h2, List.getElem_map]
    rfl

/-- C4 (witness): one well-fenced block between backtick-free separators. -/
theorem C4_fenced_diagram_extraction_witness :
    (Api.extract_mermaid_diagrams
      (some (buildText [("Intro\n".toList, "graph TD; A-->B".toList)] "\nOutro".toList))).length = 1 ∧
    (Api.extract_mermaid_diagrams
      (some (buildText [("Intro\n".toList, "graph TD; A-->B".toList)] "\nOutro".toList)))[0]? =
      some ⟨"Diagram 1".toList, "graph TD; A-->B".toList⟩ := by
  have hw := C4_fenced_diagram_extraction [("Intro\n".toList, "graph TD; A-->B".toList)]
    "\nOutro".toList (by decide) (by decide)
  refine ⟨hw.1, ?_⟩
  have h0 := hw.2 0 (by decide)
  rw [h0]
  rfl

set_option maxRecDepth 16384 in
/-- C5: aggregating a fully-succeeded run (all three stages of `C5stages`
succeed; status "completed") whose synchronization created 2 epics and 0
stories with 0 failures yields a result whose jira_artifacts summary reads
exactly "Created 2 epics and 0 stories in Jira"; and in general the two
summary counts are the lengths of the partition of the sync result's
created list, so they always sum to the created count and are never
estimated. -/
theorem C5_summary_counts :
    ((process_user_input okTracker C5stages "build an app".toList none).status =
        "completed".toList ∧
     (process_user_input okTracker C5stages "build an app".toList none).jira_artifacts =
        some "Created 2 epics and 0 stories in Jira".toList ∧
     parse_work_items C5raw = some C5payload ∧
     (sync okTracker C5payload).created.length = 2 ∧
     (sync okTracker C5payload).failed.length = 0) ∧
    ∀ (tracker : WorkItemDraft → Except (List Char) (List Char)) (p : Payload),
      (mkJiraResult (sync tracker p)).epics.length +
        (mkJiraResult (sync tracker p)).stories.length = (sync tracker p).created.length :=
  ⟨⟨rfl, rfl, rfl, rfl, rfl⟩, fun _ _ => created_partition_length _⟩

/-- C6: on `C6input` — zero fenced blocks and exactly one recognizable
flow-diagram body — main.py's fallback extraction returns no diagram at
all: under re.MULTILINE the `$` in the lookahead matches before the first
newline, so the capture is only the header line "graph TD" (8 characters),
which the `> 10` length filter then discards.  The claimed behaviour
(capture up to the next blank line, heading or diagram keyword, returning
exactly one diagram) does not happen. -/
theorem C6_fallback_misses_flowchart :
    findMermaid C6input = [] ∧
    fallbackMatches C6input = ["graph TD".toList] ∧
    MainSys.extract_mermaid_diagrams C6input = [] :=
  ⟨rfl, rfl, rfl⟩

/-- C7 (counterexample): main.py's extraction discards the fenced match
"graph TD;A", whose trimmed length is exactly 10 — the claim says matches
of length 10 are kept; and api_backend's extraction keeps the length-2
match "hi" — the claim says every match shorter than 10 is discarded. -/
theorem C7_counterexample :
    (pyStrip "graph TD;A".toList).length = 10 ∧
    findMermaid C7input = ["graph TD;A".toList] ∧
    MainSys.extract_mermaid_diagrams C7input = [] ∧
    Api.extract_mermaid_diagrams (some C9input) = [⟨"Diagram 1".toList, "hi".toList⟩] :=
  ⟨rfl, rfl, rfl, rfl⟩

/-- C7 (amended): main.py's extraction keeps exactly the matches whose
trimmed form is non-empty and of length strictly greater than 10 (so a
trimmed length of exactly 10 is discarded): every returned diagram has
length above 10, and every gathered match trimming to more than 10
characters is returned; api_backend's extraction applies no length filter
at all (one diagram per fenced match). -/
theorem C7_amended_length_filter :
    (∀ text c : List Char, c ∈ MainSys.extract_mermaid_diagrams text → 10 < c.length) ∧
    (∀ text m : List Char, m ∈ MainSys.allMatches text → 10 < (pyStrip m).length →
      pyStrip m ∈ MainSys.extract_mermaid_diagrams text) ∧
    (∀ text : List Char, (Api.extract_core text).length = (findMermaid text).length) :=
  ⟨mem_extract_length, extract_keeps, fun text => numberFrom_length (findMermaid text) 1⟩

/-- C7 (witness): the amended theorem applied to a fenced match of trimmed
length 12, which is kept. -/
theorem C7_amended_length_filter_witness :
    "abcdefghijkl".toList ∈
      MainSys.extract_mermaid_diagrams "```mermaid\nabcdefghijkl\n```".toList ∧
    10 < ("abcdefghijkl".toList).length := by
  constructor
  · exact C7_amended_length_filter.2.1 "```mermaid\nabcdefghijkl\n```".toList
      "abcdefghijkl".toList (by decide) (by decide)
  · decide

/-- C8: both diagram extractors are pure functions of their input text in
this embedding (the source reads no state besides its argument: only the
`re` module and locals; logging does not influence the value), so calling
either twice on the same text yields identical output lists. -/
theorem C8_extraction_pure :
    ∀ text : List Char,
      MainSys.extract_mermaid_diagrams text = MainSys.extract_mermaid_diagrams text ∧
      Api.extract_mermaid_diagrams (some text) = Api.extract_mermaid_diagrams (some text) :=
  fun _ => ⟨rfl, rfl⟩

/-- C9 (counterexample): on `C9input` the API backend extracts the code
"hi" while main.py's extraction returns the empty list (its length filter
drops the short match), so the two implementations do not agree on diagram
content. -/
theorem C9_counterexample :
    (Api.extract_mermaid_diagrams (some C9input)).map ExtractedDiagram.code = ["hi".toList] ∧
    MainSys.extract_mermaid_diagrams C9input = [] ∧
    (Api.extract_mermaid_diagrams (some C9input)).map ExtractedDiagram.code ≠
      MainSys.extract_mermaid_diagrams C9input :=
  ⟨rfl, rfl, by decide⟩

/-- C9 (amended): when the text contains at least one fenced block, the
two implementations agree up to main.py's length filter: main.py's output
equals the API backend's code list filtered to trimmed length above 10
(they still differ on fence-free texts, where only main.py applies the
keyword fallback). -/
theorem C9_amended_fenced_agreement (text : List Char) (h : findMermaid text ≠ []) :
    MainSys.extract_mermaid_diagrams text =
      ((Api.extract_mermaid_diagrams (some text)).map ExtractedDiagram.code).filter
        (fun c => decide (c ≠ [] ∧ 10 < c.length)) := by
  have hall : MainSys.allMatches text = findMermaid text := by
    rcases hfm : findMermaid text with _ | ⟨a, l⟩
    · exact absurd hfm h
    · simp [MainSys.allMatches, hfm]
  simp only [MainSys.extract_mermaid_diagrams]
  rw [hall, filterMap_keepLong_eq, api_some_eq_core]
  simp only [Api.extract_core]
  rw [numberFrom_map_code]

/-- C9 (witness): the amended agreement at a text with one long fenced
block. -/
theorem C9_amended_fenced_agreement_witness :
    MainSys.extract_mermaid_diagrams "```mermaid\nabcdefghijklm\n```".toList =
      ((Api.extract_mermaid_diagrams
          (some "```mermaid\nabcdefghijklm\n```".toList)).map ExtractedDiagram.code).filter
        (fun c => decide (c ≠ [] ∧ 10 < c.length)) :=
  C9_amended_fenced_agreement "```mermaid\nabcdefghijklm\n```".toList (by decide)

/-- C10: the API backend's extraction is total at its public boundary:
absent input and the empty string both yield the empty list (the falsy
guard `if not text`), and on every other string it equals the total core
extraction (built from the fenced-block scan and stripping, none of which
can fail), so every input yields a list and no fault is raised. -/
theorem C10_total_boundary :
    Api.extract_mermaid_diagrams none = [] ∧
    Api.extract_mermaid_diagrams (some []) = [] ∧
    ∀ t : List Char, Api.extract_mermaid_diagrams (some t) = Api.extract_core t :=
  ⟨rfl, rfl, api_some_eq_core⟩
